import Mathlib

/-!
Verification development for the baton cycle-orchestration core.

The Go sources are shallowly embedded: SQLite queries become pure operations
on an explicit `Store` value, wall-clock reads become an explicit `now : Nat`
parameter (seconds), and fallible Go functions return `Except`/`Option`.
Sequential execution is assumed throughout: between two consecutive store
reads of one function no other writer runs.
-/

namespace Baton

/-- Task states are strings in the source (`storage.State`). -/
abbrev State := String

/-- Embeds `storage.StateAliases`: common typos mapped to canonical states. -/
def StateAliases : List (String × State) :=
  [("ready_for_implmentation", "ready_for_implementation"),
   ("ready_for_code_revie", "ready_for_code_review"),
   ("need_fixes", "needs_fixes"),
   ("commiting", "committing")]

/-- Embeds `storage.NormalizeState`. -/
def NormalizeState (input : String) : State :=
  match StateAliases.find? (fun p => p.1 == input) with
  | some p => p.2
  | none => input

/-- Embeds `statemachine.ValidTransitions` (a Go map; only keyed lookup is used). -/
def ValidTransitions : List (State × List State) :=
  [("ready_for_plan", ["planning"]),
   ("planning", ["ready_for_implementation", "needs_fixes"]),
   ("ready_for_implementation", ["implementing"]),
   ("implementing", ["ready_for_code_review", "needs_fixes"]),
   ("ready_for_code_review", ["reviewing"]),
   ("reviewing", ["ready_for_commit", "needs_fixes"]),
   ("ready_for_commit", ["committing"]),
   ("committing", ["DONE", "needs_fixes"]),
   ("needs_fixes", ["fixing"]),
   ("fixing", ["ready_for_code_review", "needs_fixes"]),
   ("DONE", [])]

/-- Keyed lookup in `ValidTransitions`. -/
def lookupTransitions (s : State) : Option (List State) :=
  (ValidTransitions.find? (fun p => p.1 == s)).map (fun p => p.2)

/-- Embeds `statemachine.ValidateTransition`. -/
def ValidateTransition (fro dst : State) : Except String Unit :=
  let fro := NormalizeState fro
  let dst := NormalizeState dst
  match lookupTransitions fro with
  | none => .error ("invalid source state: " ++ fro)
  | some allowed =>
    if dst ∈ allowed then .ok ()
    else .error ("invalid transition from " ++ fro ++ " to " ++ dst)

/-- Embeds `statemachine.GetAllowedTransitions`. -/
def GetAllowedTransitions (fro : State) : Except String (List State) :=
  match lookupTransitions (NormalizeState fro) with
  | none => .error ("invalid state: " ++ NormalizeState fro)
  | some allowed => .ok allowed

/-- Embeds `statemachine.IsTerminalState`. -/
def IsTerminalState (s : State) : Bool :=
  match lookupTransitions (NormalizeState s) with
  | none => false
  | some allowed => allowed.isEmpty

/-- The observable states of the raw `dependencies` JSON column
(`json.RawMessage` in Go): empty bytes, bytes that fail to unmarshal,
or bytes that unmarshal to a list of task ids. -/
inductive DepsJSON where
  | empty : DepsJSON
  | invalid (msg : String) : DepsJSON
  | parsed (deps : List String) : DepsJSON
deriving DecidableEq, Repr

/-- Embeds `storage.Task` (tags and blocked_by are never read by the core paths
under verification and are kept as raw strings). -/
structure Task where
  id : String
  title : String
  description : String
  state : State
  priority : Int
  owner : String
  tags : String
  dependencies : DepsJSON
  blockedBy : String
  createdAt : Nat
  updatedAt : Nat
deriving DecidableEq, Repr

/-- Embeds `storage.Artifact`. -/
structure Artifact where
  id : String
  taskID : String
  name : String
  version : Int
  content : String
  meta : String
  createdAt : Nat
deriving DecidableEq, Repr

/-- Embeds `storage.Requirement`. -/
structure Requirement where
  id : String
  key : String
  title : String
  text : String
  type' : String
  createdAt : Nat
  updatedAt : Nat
deriving DecidableEq, Repr

/-- Embeds `storage.AuditLog`. -/
structure AuditLog where
  id : String
  taskID : String
  cycleID : String
  prevState : String
  nextState : String
  actor : String
  selectionReason : String
  inputsSummary : String
  outputsSummary : String
  commands : String
  result : String
  note : String
  followUps : String
  createdAt : Nat
deriving DecidableEq, Repr

/-- The SQLite database contents (`storage.Store`). -/
structure Store where
  tasks : List Task
  requirements : List Requirement
  artifacts : List Artifact
  auditLogs : List AuditLog
deriving DecidableEq, Repr

/-- Embeds `Store.GetTask`: point query on the primary key. -/
def GetTask (s : Store) (id : String) : Option Task :=
  s.tasks.find? (fun t => t.id == id)

/-- Embeds `Store.UpdateTaskState`. The source's UPDATE statement writes only
`state` and `updated_at`; the `note` argument is unused in the source and
therefore does not appear on the right-hand side. A missing id updates
zero rows and still succeeds, exactly as in SQL. -/
def UpdateTaskState (s : Store) (now : Nat) (id : String) (state : State)
    (_note : String) : Store :=
  { s with tasks := s.tasks.map (fun t =>
      if t.id == id then { t with state := state, updatedAt := now } else t) }

/-- Deterministic model of an SQL sort / Go `sort.Slice`: insertion sort
by a boolean strict-less comparator. -/
def insertLess (less : α → α → Bool) (a : α) : List α → List α
  | [] => [a]
  | b :: bs => if less a b then a :: b :: bs else b :: insertLess less a bs

/-- Sort a list by a boolean comparator (see `insertLess`). -/
def sortBySlice (less : α → α → Bool) : List α → List α
  | [] => []
  | a :: rest => insertLess less a (sortBySlice less rest)

/-- Comparator of `Store.ListTasks`: ORDER BY priority DESC, updated_at ASC. -/
def taskOrderLess (a b : Task) : Bool :=
  decide (b.priority < a.priority) ||
    (a.priority == b.priority && decide (a.updatedAt < b.updatedAt))

/-- Embeds `Store.ListTasks` with empty filters (the only form the selector uses). -/
def ListTasks (s : Store) : List Task :=
  sortBySlice taskOrderLess s.tasks

/-- Rows of the `artifacts` table for one `(task_id, name)` pair, in
insertion order. -/
def artifactsFor (s : Store) (tid nm : String) : List Artifact :=
  s.artifacts.filter (fun a => a.taskID == tid && a.name == nm)

/-- SQL `COALESCE(MAX(version), 0)` over a list of versions. -/
def maxVersionList : List Int → Int
  | [] => 0
  | v :: rest => max v (maxVersionList rest)

/-- Highest existing version for `(task_id, name)`, 0 when none exists. -/
def maxVersion (s : Store) (tid nm : String) : Int :=
  maxVersionList ((artifactsFor s tid nm).map (fun a => a.version))

/-- Embeds `Store.UpsertArtifact`: reads MAX(version), inserts a fresh row with
version = max + 1, and returns the inserted row (the source mutates the
passed struct in place). `newID` models `uuid.New()`. -/
def UpsertArtifact (s : Store) (now : Nat) (newID tid nm content meta : String) :
    Artifact × Store :=
  let a : Artifact := { id := newID, taskID := tid, name := nm,
                        version := maxVersion s tid nm + 1, content := content,
                        meta := meta, createdAt := now }
  (a, { s with artifacts := s.artifacts ++ [a] })

/-- SQL `ORDER BY version DESC LIMIT 1`: the row with the greatest version
(unambiguous under the UNIQUE(task_id, name, version) constraint). -/
def latestArtifact : List Artifact → Option Artifact
  | [] => none
  | a :: rest =>
    match latestArtifact rest with
    | none => some a
    | some b => if a.version < b.version then some b else some a

/-- Embeds `Store.GetArtifact`: version 0 means latest. -/
def GetArtifact (s : Store) (tid nm : String) (version : Int) : Option Artifact :=
  if version == 0 then latestArtifact (artifactsFor s tid nm)
  else (artifactsFor s tid nm).find? (fun a => a.version == version)

/-- Comparator of `Store.ListArtifacts`: ORDER BY name, version DESC. -/
def artifactOrderLess (a b : Artifact) : Bool :=
  decide (a.name < b.name) ||
    (a.name == b.name && decide (b.version < a.version))

/-- Embeds `Store.ListArtifacts`. -/
def ListArtifacts (s : Store) (tid : String) : List Artifact :=
  sortBySlice artifactOrderLess (s.artifacts.filter (fun a => a.taskID == tid))

/-- Embeds `Store.CreateAuditLog`: append-only insert stamped with the clock. -/
def CreateAuditLog (s : Store) (now : Nat) (entry : AuditLog) : Store :=
  { s with auditLogs := s.auditLogs ++ [{ entry with createdAt := now }] }

/-- Row order of `Store.GetAuditLogs`: ORDER BY created_at DESC. -/
def auditDescRel (a b : AuditLog) : Prop :=
  b.createdAt ≤ a.createdAt

instance : DecidableRel auditDescRel :=
  fun a b => inferInstanceAs (Decidable (b.createdAt ≤ a.createdAt))

instance : IsTotal AuditLog auditDescRel :=
  ⟨fun a b => Nat.le_total b.createdAt a.createdAt⟩

instance : IsTrans AuditLog auditDescRel :=
  ⟨fun _ _ _ h₁ h₂ => Nat.le_trans h₂ h₁⟩

/-- Embeds `Store.GetAuditLogs`: the task's rows, most recent first. -/
def GetAuditLogs (s : Store) (tid : String) : List AuditLog :=
  List.insertionSort auditDescRel (s.auditLogs.filter (fun l => l.taskID == tid))

/-- Embeds `llm.Logger.GetTaskHistory`: delegates to `Store.GetAuditLogs`. -/
def GetTaskHistory (s : Store) (tid : String) : List AuditLog :=
  GetAuditLogs s tid

/-- Embeds `config.SelectionConfig`. -/
structure SelectionConfig where
  algorithm : String
  dependencyStrict : Bool
  preferLeafTasks : Bool
  tieBreaker : String
deriving DecidableEq, Repr

/-- Embeds `statemachine.SelectionResult`. -/
structure SelectionResult where
  task : Task
  reason : String
deriving DecidableEq, Repr

/-- Embeds `statemachine.taskCandidate`. -/
structure TaskCandidate where
  task : Task
  blocked : Bool
  blockReason : String
  isLeaf : Bool
  priority : Int
deriving DecidableEq, Repr

/-- The dependency loop of `TaskSelector.isBlockedByDependencies`:
first unresolvable or non-DONE dependency wins. -/
def depsCheckLoop (s : Store) : List String → Bool × String
  | [] => (false, "")
  | d :: rest =>
    match GetTask s d with
    | none => (true, "dependency " ++ d ++ " not found")
    | some dt =>
      if dt.state ≠ "DONE" then
        (true, "dependency " ++ d ++ " (" ++ dt.title ++ ") not complete")
      else depsCheckLoop s rest

/-- Embeds `TaskSelector.isBlockedByDependencies`. Without `dependency_strict` the
source returns unblocked immediately. -/
def isBlockedByDependencies (s : Store) (cfg : SelectionConfig) (task : Task) :
    Bool × String :=
  if !cfg.dependencyStrict then (false, "")
  else
    match task.dependencies with
    | .empty => depsCheckLoop s []
    | .invalid msg => (true, "invalid dependencies JSON: " ++ msg)
    | .parsed deps => depsCheckLoop s deps

/-- Embeds `TaskSelector.hasUnfinishedDependents`. -/
def hasUnfinishedDependents (s : Store) (task : Task) : Bool :=
  (ListTasks s).any (fun other =>
    if other.id == task.id || other.state == "DONE" then false
    else
      match other.dependencies with
      | .parsed deps => deps.contains task.id
      | _ => false)

/-- The comparator of `TaskSelector.sortCandidates`: priority descending,
then (optionally) leaf-first, then the configured tie-breaker with
oldest_updated as the default branch. -/
def candLess (cfg : SelectionConfig) (a b : TaskCandidate) : Bool :=
  if a.priority ≠ b.priority then decide (b.priority < a.priority)
  else if cfg.preferLeafTasks && (a.isLeaf != b.isLeaf) then a.isLeaf
  else if cfg.tieBreaker = "oldest_updated" then
    decide (a.task.updatedAt < b.task.updatedAt)
  else if cfg.tieBreaker = "newest_created" then
    decide (b.task.createdAt < a.task.createdAt)
  else if cfg.tieBreaker = "alphabetical" then
    decide (a.task.title < b.task.title)
  else decide (a.task.updatedAt < b.task.updatedAt)

/-- Embeds `TaskSelector.sortCandidates`. -/
def sortCandidates (cfg : SelectionConfig) : List TaskCandidate → List TaskCandidate :=
  sortBySlice (candLess cfg)

/-- Embeds `TaskSelector.buildSelectionReason`. -/
def buildSelectionReason (cfg : SelectionConfig) (now : Nat)
    (selected : TaskCandidate) (total avail : Nat) : String :=
  let reason := "Selected from " ++ toString total ++ " total tasks (" ++
    toString avail ++ " available)"
  let prioCrit :=
    if 5 < selected.priority then "high priority (" ++ toString selected.priority ++ ")"
    else if selected.priority = 5 then "normal priority (" ++ toString selected.priority ++ ")"
    else "low priority (" ++ toString selected.priority ++ ")"
  let leafCrit : List String :=
    if cfg.preferLeafTasks && selected.isLeaf then ["leaf task (no dependents)"] else []
  let depCount :=
    match selected.task.dependencies with
    | .parsed deps => deps.length
    | _ => 0
  let depCrit :=
    if 0 < depCount then toString depCount ++ " dependencies satisfied"
    else "no dependencies"
  let age := now - selected.task.updatedAt
  let tieCrit : List String :=
    if cfg.tieBreaker = "oldest_updated" then
      if 24 * 3600 < age then ["oldest update (" ++ toString (age / 3600 / 24) ++ "d ago)"]
      else ["oldest update (" ++ toString (age / 3600) ++ "h ago)"]
    else []
  let criteria := [prioCrit] ++ leafCrit ++ [depCrit] ++ tieCrit
  if criteria.isEmpty then reason
  else reason ++ ": " ++ String.intercalate ", " criteria

/-- Embeds `TaskSelector.selectByPriorityAndDependency`. The source indexes the
sorted slice at 0 after an emptiness check; the impossible empty branch of
the match reuses the same error. -/
def selectByPriorityAndDependency (s : Store) (cfg : SelectionConfig) (now : Nat)
    (tasks : List Task) : Except String SelectionResult :=
  let candidates := tasks.map (fun t =>
    { task := t,
      blocked := (isBlockedByDependencies s cfg t).1,
      blockReason := (isBlockedByDependencies s cfg t).2,
      isLeaf := !hasUnfinishedDependents s t,
      priority := t.priority : TaskCandidate })
  let available := candidates.filter (fun c => !c.blocked)
  if available.isEmpty then .error "no unblocked tasks available"
  else
    match sortCandidates cfg available with
    | [] => .error "no unblocked tasks available"
    | selected :: _ =>
      .ok { task := selected.task,
            reason := buildSelectionReason cfg now selected
              candidates.length available.length }

/-- Embeds `TaskSelector.getSelectableTasks`. -/
def getSelectableTasks (s : Store) : List Task :=
  (ListTasks s).filter (fun t => !IsTerminalState t.state)

/-- Embeds `TaskSelector.SelectNext`. -/
def SelectNext (s : Store) (cfg : SelectionConfig) (now : Nat) :
    Except String SelectionResult :=
  let tasks := getSelectableTasks s
  if tasks.isEmpty then .error "no selectable tasks available"
  else if cfg.algorithm = "priority_dependency" then
    selectByPriorityAndDependency s cfg now tasks
  else .error ("unknown selection algorithm: " ++ cfg.algorithm)

/-- The required-handover table (`getRequiredHandovers` in the validator;
the handshake file repeats the same map). -/
def getRequiredHandovers (fro dst : State) : List String :=
  let key := fro ++ "->" ++ dst
  if key = "planning->ready_for_implementation" then ["implementation_plan"]
  else if key = "implementing->ready_for_code_review" then ["change_summary"]
  else if key = "reviewing->ready_for_commit" then ["review_findings"]
  else if key = "reviewing->needs_fixes" then ["review_findings"]
  else if key = "fixing->ready_for_code_review" then ["fix_plan"]
  else if key = "committing->DONE" then ["commit_summary"]
  else []

/-- The work states whose entry requires completed dependencies
(`TransitionValidator.validateDependencies`). -/
def workStates : List State :=
  ["planning", "implementing", "reviewing", "committing"]

/-- The dependency loop of `TransitionValidator.validateDependencies`. -/
def validateDepsLoop (s : Store) : List String → Except String Unit
  | [] => .ok ()
  | d :: rest =>
    match GetTask s d with
    | none => .error ("dependency task " ++ d ++ " not found")
    | some dt =>
      if dt.state ≠ "DONE" then
        .error ("dependency task " ++ d ++ " (" ++ dt.title ++
          ") is not complete (current state: " ++ dt.state ++ ")")
      else validateDepsLoop s rest

/-- Embeds `TransitionValidator.validateDependencies`. -/
def validateDependencies (s : Store) (task : Task) (newState : State) :
    Except String Unit :=
  if newState ∈ workStates then
    match task.dependencies with
    | .empty => validateDepsLoop s []
    | .invalid msg => .error ("failed to parse dependencies: " ++ msg)
    | .parsed deps => validateDepsLoop s deps
  else .ok ()

/-- The artifact loop of `TransitionValidator.validateRequiredHandovers`. -/
def handoversLoop (s : Store) (tid : String) : List String → Except String Unit
  | [] => .ok ()
  | h :: rest =>
    match GetArtifact s tid h 0 with
    | none => .error ("required handover artifact " ++ h ++ " not found")
    | some a =>
      if a.content = "" then
        .error ("required handover artifact " ++ h ++ " exists but is empty")
      else handoversLoop s tid rest

/-- Embeds `TransitionValidator.validateRequiredHandovers`. -/
def validateRequiredHandovers (s : Store) (task : Task) (newState : State) :
    Except String Unit :=
  handoversLoop s task.id (getRequiredHandovers task.state newState)

/-- Embeds `TransitionValidator.ValidateAndTransition`: the only agent-reachable
state mutation. On success the store update is performed with the raw
`newState` argument, exactly as in the source. -/
def ValidateAndTransition (s : Store) (now : Nat) (taskID : String)
    (newState : State) (note : String) : Except String Store :=
  match GetTask s taskID with
  | none => .error ("failed to get task " ++ taskID)
  | some task =>
    match ValidateTransition task.state newState with
    | .error e => .error ("transition validation failed: " ++ e)
    | .ok _ =>
      match validateDependencies s task newState with
      | .error e => .error ("dependency validation failed: " ++ e)
      | .ok _ =>
        match validateRequiredHandovers s task newState with
        | .error e => .error ("handover validation failed: " ++ e)
        | .ok _ => .ok (UpdateTaskState s now taskID newState note)

/-- Standard JSON-RPC error codes (`mcp` package constants). -/
def ParseError : Int := -32700

/-- JSON-RPC invalid-request code. -/
def InvalidRequest : Int := -32600

/-- JSON-RPC method-not-found code. -/
def MethodNotFound : Int := -32601

/-- JSON-RPC invalid-params code. -/
def InvalidParams : Int := -32602

/-- JSON-RPC internal-error code. -/
def InternalError : Int := -32603

/-- MCP-specific code the source assigns to missing resources. -/
def ResourceNotFound : Int := -32002

/-- MCP-specific code the source assigns to unknown tools. -/
def ToolNotFound : Int := -32001

/-- A JSON parameter value as the handlers observe it. -/
inductive JSONValue where
  | str (s : String)
  | num (n : Int)
  | null
deriving DecidableEq, Repr

/-- Embeds `mcp.JSONRPCRequest` (id modelled as an integer correlation id). -/
structure JSONRPCRequest where
  method : String
  id : Int
  params : List (String × JSONValue)
deriving DecidableEq, Repr

/-- Embeds `JSONRPCRequest.GetStringParam`. -/
def GetStringParam (r : JSONRPCRequest) (name : String) : Except String String :=
  match r.params.find? (fun p => p.1 == name) with
  | none => .error ("parameter " ++ name ++ " not found")
  | some (_, .str v) => .ok v
  | some _ => .error ("parameter " ++ name ++ " is not a string")

/-- Embeds `JSONRPCRequest.GetIntParam`. -/
def GetIntParam (r : JSONRPCRequest) (name : String) : Except String Int :=
  match r.params.find? (fun p => p.1 == name) with
  | none => .error ("parameter " ++ name ++ " not found")
  | some (_, .num v) => .ok v
  | some _ => .error ("parameter " ++ name ++ " is not a number")

/-- Embeds `JSONRPCRequest.GetOptionalStringParam`; absent or non-string yields
the empty string with `false`, as in the source. -/
def GetOptionalStringParam (r : JSONRPCRequest) (name : String) : String × Bool :=
  match r.params.find? (fun p => p.1 == name) with
  | some (_, .str v) => (v, true)
  | _ => ("", false)

/-- Result payloads the embedded handlers return. -/
inductive ResultPayload where
  | taskDetail (task : Task) (artifacts : List Artifact)
  | stateUpdated (taskID : String) (state : State)
  | noteAppended (taskID : String)
  | artifactUpserted (a : Artifact)
  | artifactDetail (a : Artifact)
deriving DecidableEq, Repr

/-- Embeds `mcp.JSONRPCResponse`: either a result or an error with a code. -/
inductive RPCResult where
  | ok (id : Int) (payload : ResultPayload)
  | err (id : Int) (code : Int) (message : String)
deriving DecidableEq, Repr

/-- Embeds `TaskHandler.Get`. -/
def TaskHandler.Get (s : Store) (req : JSONRPCRequest) : RPCResult :=
  match GetStringParam req "task_id" with
  | .error _ => .err req.id InvalidParams "Missing task_id parameter"
  | .ok taskID =>
    match GetTask s taskID with
    | none => .err req.id ResourceNotFound "Task not found"
    | some task => .ok req.id (.taskDetail task (ListArtifacts s task.id))

/-- Embeds `TaskHandler.UpdateState`. -/
def TaskHandler.UpdateState (s : Store) (now : Nat) (req : JSONRPCRequest) :
    RPCResult × Store :=
  match GetStringParam req "task_id" with
  | .error _ => (.err req.id InvalidParams "Missing task_id parameter", s)
  | .ok taskID =>
    match GetStringParam req "state" with
    | .error _ => (.err req.id InvalidParams "Missing state parameter", s)
    | .ok stateStr =>
      let note := (GetOptionalStringParam req "note").1
      let newState := NormalizeState stateStr
      match ValidateAndTransition s now taskID newState note with
      | .error e => (.err req.id InvalidParams ("State transition failed: " ++ e), s)
      | .ok s' => (.ok req.id (.stateUpdated taskID newState), s')

/-- Embeds `TaskHandler.AppendNote`. -/
def TaskHandler.AppendNote (s : Store) (now : Nat) (req : JSONRPCRequest) :
    RPCResult × Store :=
  match GetStringParam req "task_id" with
  | .error _ => (.err req.id InvalidParams "Missing task_id parameter", s)
  | .ok taskID =>
    match GetStringParam req "note" with
    | .error _ => (.err req.id InvalidParams "Missing note parameter", s)
    | .ok note =>
      match GetTask s taskID with
      | none => (.err req.id ResourceNotFound "Task not found", s)
      | some task =>
        (.ok req.id (.noteAppended taskID), UpdateTaskState s now taskID task.state note)

/-- Embeds `ArtifactHandler.Upsert` (`newID` models the generated uuid). -/
def ArtifactHandler.Upsert (s : Store) (now : Nat) (newID : String)
    (req : JSONRPCRequest) : RPCResult × Store :=
  match GetStringParam req "task_id" with
  | .error _ => (.err req.id InvalidParams "Missing task_id parameter", s)
  | .ok taskID =>
    match GetStringParam req "name" with
    | .error _ => (.err req.id InvalidParams "Missing name parameter", s)
    | .ok name =>
      match GetStringParam req "content" with
      | .error _ => (.err req.id InvalidParams "Missing content parameter", s)
      | .ok content =>
        let meta := (GetOptionalStringParam req "meta").1
        let p := UpsertArtifact s now newID taskID name content meta
        (.ok req.id (.artifactUpserted p.1), p.2)

/-- Embeds `ArtifactHandler.Get`; a failed version lookup defaults to 0 (latest). -/
def ArtifactHandler.Get (s : Store) (req : JSONRPCRequest) : RPCResult :=
  match GetStringParam req "task_id" with
  | .error _ => .err req.id InvalidParams "Missing task_id parameter"
  | .ok taskID =>
    match GetStringParam req "name" with
    | .error _ => .err req.id InvalidParams "Missing name parameter"
    | .ok name =>
      let version := match GetIntParam req "version" with
        | .ok v => v
        | .error _ => 0
      match GetArtifact s taskID name version with
      | none => .err req.id ResourceNotFound "Artifact not found"
      | some a => .ok req.id (.artifactDetail a)

/-- Embeds `config.CompletionConfig`. -/
structure CompletionConfig where
  maxRetries : Nat
  retryDelaySeconds : Nat
  timeoutSeconds : Nat
  requireExplicitStateUpdate : Bool
  followUpTemplate : String
deriving DecidableEq, Repr

/-- Embeds `cycle.HandshakeResult`. -/
structure HandshakeResult where
  success : Bool
  finalState : State
  artifactsCreated : List String
  followUps : List String
  note : String
deriving DecidableEq, Repr

/-- Embeds `llm.Response` (the fields the cycle paths read). -/
structure LLMResponse where
  success : Bool
  content : String
deriving DecidableEq, Repr

/-- The retry loop of `CompletionHandshake.enforceHandshake`. Each iteration
reloads the task and compares against `initState`; the inter-retry delay has
no effect on the store, and the follow-up is only recorded, never sent
(the source marks sending as TODO). `fuel` is `MaxRetries` minus the
iterations already run, `retry` the current index. -/
def handshakeLoop (s : Store) (cfg : CompletionConfig) (taskID : String)
    (initState : State) (followUps : List String) (retry : Nat) :
    Nat → Except String (Option (State × Nat) × List String)
  | 0 => .ok (none, followUps)
  | Nat.succ fuel =>
    match GetTask s taskID with
    | none => .error "failed to get task during handshake"
    | some task =>
      if task.state ≠ initState then .ok (some (task.state, retry), followUps)
      else
        handshakeLoop s cfg taskID initState
          (followUps ++ [cfg.followUpTemplate]) (retry + 1) fuel

/-- Embeds `CompletionHandshake.enforceHandshake`: the retry loop followed, on
exhaustion, by the forced drop to needs_fixes written directly through
`Store.UpdateTaskState` when `require_explicit_state_update` is set. -/
def enforceHandshake (s : Store) (cfg : CompletionConfig) (now : Nat)
    (taskID : String) (initState : State) :
    Except String (HandshakeResult × Store) :=
  match handshakeLoop s cfg taskID initState [] 0 cfg.maxRetries with
  | .error e => .error e
  | .ok (some (st, retry), followUps) =>
    .ok ({ success := true, finalState := st, artifactsCreated := [],
           followUps := followUps,
           note := "Task state updated after follow-up " ++ toString (retry + 1) }, s)
  | .ok (none, followUps) =>
    if cfg.requireExplicitStateUpdate then
      let note := "Completion handshake failed after " ++ toString cfg.maxRetries ++
        " retries. Agent did not update task state."
      .ok ({ success := false, finalState := "needs_fixes", artifactsCreated := [],
             followUps := followUps, note := note },
           UpdateTaskState s now taskID "needs_fixes" note)
    else
      .ok ({ success := false, finalState := initState, artifactsCreated := [],
             followUps := followUps, note := "" }, s)

/-- Embeds `CompletionHandshake.Enforce`. The source performs both `GetTask` calls
after the LLM has terminated, back to back; in the sequential semantics both
reads observe the same store. -/
def Enforce (s : Store) (cfg : CompletionConfig) (now : Nat) (taskID : String)
    (_llmResponse : LLMResponse) : Except String (HandshakeResult × Store) :=
  match GetTask s taskID with
  | none => .error "failed to get task"
  | some task =>
    let initState := task.state
    match GetTask s taskID with
    | none => .error "failed to get updated task"
    | some updatedTask =>
      if updatedTask.state ≠ initState then
        .ok ({ success := true, finalState := updatedTask.state,
               artifactsCreated :=
                 ((ListArtifacts s taskID).filter
                   (fun a => now - a.createdAt < 30)).map (fun a => a.name),
               followUps := [],
               note := "Task state successfully updated" }, s)
      else enforceHandshake s cfg now taskID initState

/-- Embeds `config.Agent` (the fields the engine reads). -/
structure AgentConfig where
  name : String
  role : String
  allowedStates : List String
deriving DecidableEq, Repr

/-- Embeds `config.Config` restricted to what `CycleEngine.ExecuteCycle` consults. -/
structure Config where
  agents : List AgentConfig
  completion : CompletionConfig
  selection : SelectionConfig
  cycleTimeboxSeconds : Nat
deriving DecidableEq, Repr

/-- Embeds `storage.CycleResult` (wall-clock duration is not modelled). -/
structure CycleResult where
  success : Bool
  taskID : String
  prevState : State
  nextState : State
  artifactsCreated : List String
deriving DecidableEq, Repr

/-- Embeds `CycleEngine.getAgentForTask`: first configured agent whose allowed
states contain the task's state (the Go map iteration order becomes the
list order). -/
def getAgentForTask (cfg : Config) (task : Task) : Option AgentConfig :=
  cfg.agents.find? (fun a => a.allowedStates.contains task.state)

/-- Embeds `CycleEngine.buildPrompt` (the fixed template filled from the task and
agent; the text is a single literal with escaped newlines). -/
def buildPrompt (task : Task) (agent : AgentConfig) : String :=
  "# " ++ agent.name ++ " Role\n\nYou are the " ++ agent.name ++
  " for this project. " ++ agent.role ++
  "\n\n## Current Context\n- **Task**: " ++ task.title ++
  "\n- **Description**: " ++ task.description ++
  "\n- **State**: " ++ task.state ++
  "\n- **Priority**: " ++ toString task.priority ++
  "\n\n## Your Responsibilities\nHandle the current task state (" ++ task.state ++
  ") according to your role.\n\n## Important Rules\n" ++
  "- Use the MCP tools to update task state and artifacts\n" ++
  "- Follow the implementation plan exactly if one exists\n" ++
  "- Create required handover artifacts before state transitions\n" ++
  "- Update the task state when your work is complete\n\n" ++
  "## Available MCP Methods\n- baton.tasks.get - Get task details\n" ++
  "- baton.tasks.update_state - Update task state\n" ++
  "- baton.tasks.append_note - Add notes to task\n" ++
  "- baton.artifacts.upsert - Create/update artifacts\n" ++
  "- baton.artifacts.get - Get existing artifacts\n" ++
  "- baton.plan.read - Read the project plan\n" ++
  "- baton.requirements.list - List requirements\n\n" ++
  "Please proceed with handling this task."

/-- Embeds `CycleEngine.buildInputsSummary`. -/
def buildInputsSummary (task : Task) : String :=
  "Task: " ++ task.title ++ " (State: " ++ task.state ++ ", Priority: " ++
    toString task.priority ++ ")"

/-- Embeds `CycleEngine.buildOutputsSummary`. -/
def buildOutputsSummary (artifactsCreated : List String) : String :=
  if artifactsCreated.isEmpty then "No artifacts created"
  else "Artifacts created: " ++ toString artifactsCreated

/-- The dry-run prediction of `ExecuteCycle` step 6: first allowed successor,
or the current state when the allowed list is missing or empty (the source
discards the lookup error). -/
def predictNextState (st : State) : State :=
  match GetAllowedTransitions st with
  | .ok (first :: _) => first
  | .ok [] => st
  | .error _ => st

/-- Embeds `CycleEngine.ExecuteCycle`. The external LLM invocation is abstracted as
`llmAct`, the net effect on the store of the Method Surface calls the agent
makes, plus the returned text `llmContent`; with `dryRun` the source skips
the MCP server, the LLM, the handshake and the audit write. -/
def ExecuteCycle (s : Store) (cfg : Config) (llmAct : Store → Store)
    (llmContent : String) (now : Nat) (dryRun : Bool) (cycleID : String) :
    Except String (CycleResult × Store) :=
  match SelectNext s cfg.selection now with
  | .error e => .error ("task selection failed: " ++ e)
  | .ok sel =>
    let task := sel.task
    match getAgentForTask cfg task with
    | none =>
      .error ("failed to get agent for task: no agent configured for state " ++
        task.state)
    | some agent =>
      let _prompt := buildPrompt task agent
      if dryRun then
        .ok ({ success := true, taskID := task.id, prevState := task.state,
               nextState := predictNextState task.state,
               artifactsCreated := [] }, s)
      else
        let s₁ := llmAct s
        let llmResponse : LLMResponse := { success := true, content := llmContent }
        match Enforce s₁ cfg.completion now task.id llmResponse with
        | .error e => .error ("completion handshake failed: " ++ e)
        | .ok (hr, s₂) =>
          let entry : AuditLog :=
            { id := cycleID, taskID := task.id, cycleID := cycleID,
              prevState := task.state, nextState := hr.finalState,
              actor := agent.name, selectionReason := sel.reason,
              inputsSummary := buildInputsSummary task,
              outputsSummary := buildOutputsSummary hr.artifactsCreated,
              commands := "", result := "success",
              note := "LLM Response: " ++ llmContent.take 200,
              followUps := "", createdAt := 0 }
          let s₃ := CreateAuditLog s₂ now entry
          .ok ({ success := true, taskID := task.id, prevState := task.state,
                 nextState := hr.finalState,
                 artifactsCreated := hr.artifactsCreated }, s₃)

/-! ## Concrete fixtures used by witnesses and counterexamples -/

/-- A fresh task at the start of the workflow. -/
def demoTask : Task := { id := "T1", title := "Auth", description := "d",
                         state := "ready_for_plan", priority := 5, owner := "",
                         tags := "", dependencies := .empty, blockedBy := "",
                         createdAt := 0, updatedAt := 0 }

/-- A store holding only `demoTask`. -/
def demoStore : Store := { tasks := [demoTask], requirements := [],
                           artifacts := [], auditLogs := [] }

/-- Default-style completion settings (2 retries, explicit update required). -/
def demoCompletion : CompletionConfig :=
  { maxRetries := 2, retryDelaySeconds := 1, timeoutSeconds := 300,
    requireExplicitStateUpdate := true, followUpTemplate := "please declare" }

/-- Default selector settings. -/
def demoSelection : SelectionConfig :=
  { algorithm := "priority_dependency", dependencyStrict := true,
    preferLeafTasks := true, tieBreaker := "oldest_updated" }

/-- An agent allowed to handle the demo task's states. -/
def demoAgent : AgentConfig := { name := "planner", role := "architect",
                                 allowedStates := ["ready_for_plan", "planning"] }

/-- Engine configuration combining the demo pieces. -/
def demoConfig : Config := { agents := [demoAgent], completion := demoCompletion,
                             selection := demoSelection, cycleTimeboxSeconds := 0 }

/-- Embeds `demoStore` after a legal agent transition ready_for_plan → planning at
time 50 (what the store looks like when the enforcer runs). -/
def demoAdvancedStore : Store :=
  { tasks := [{ demoTask with state := "planning", updatedAt := 50 }],
    requirements := [], artifacts := [], auditLogs := [] }

/-- A successful LLM reply. -/
def demoResponse : LLMResponse := { success := true, content := "done" }

/-- What the enforcer actually returns on `demoAdvancedStore`. -/
def demoFailedHandshake : HandshakeResult :=
  { success := false, finalState := "needs_fixes", artifactsCreated := [],
    followUps := ["please declare", "please declare"],
    note := "Completion handshake failed after 2 retries. Agent did not update task state." }

/-- Embeds `demoAdvancedStore` after the enforcer's forced drop at time 100. -/
def demoDroppedStore : Store :=
  { tasks := [{ demoTask with state := "needs_fixes", updatedAt := 100 }],
    requirements := [], artifacts := [], auditLogs := [] }

/-- The cycle result a dry run on `demoStore` produces. -/
def demoDryResult : CycleResult :=
  { success := true, taskID := "T1", prevState := "ready_for_plan",
    nextState := "planning", artifactsCreated := [] }

/-- The earlier of two audit entries for task T. -/
def auditEarly : AuditLog := { id := "a1", taskID := "T", cycleID := "c1",
                               prevState := "", nextState := "", actor := "",
                               selectionReason := "", inputsSummary := "",
                               outputsSummary := "", commands := "", result := "",
                               note := "", followUps := "", createdAt := 10 }

/-- The later audit entry for task T. -/
def auditLate : AuditLog := { auditEarly with id := "a2", createdAt := 20 }

/-- A store with the two audit entries in insertion order. -/
def auditDemoStore : Store := { tasks := [], requirements := [], artifacts := [],
                                auditLogs := [auditEarly, auditLate] }

/-- A tasks.get request for a task id that does not exist. -/
def reqMissing : JSONRPCRequest :=
  { method := "baton.tasks.get", id := 1,
    params := [("task_id", JSONValue.str "missing")] }

/-- An artifact at version 1. -/
def artOne : Artifact := { id := "a1", taskID := "T1", name := "plan",
                           version := 1, content := "v1", meta := "",
                           createdAt := 1 }

/-- A store holding `artOne`. -/
def artStore : Store := { tasks := [], requirements := [], artifacts := [artOne],
                          auditLogs := [] }

/-- The empty store. -/
def emptyStore : Store := { tasks := [], requirements := [], artifacts := [],
                            auditLogs := [] }

/-- The demo task sitting in the planning state. -/
def planTask : Task := { demoTask with state := "planning" }

/-- A store with `planTask` and no artifacts. -/
def planStore : Store := { tasks := [planTask], requirements := [],
                           artifacts := [], auditLogs := [] }

/-- A nonempty implementation_plan handover for T1. -/
def implArt : Artifact := { id := "ar1", taskID := "T1",
                            name := "implementation_plan", version := 1,
                            content := "the plan", meta := "", createdAt := 3 }

/-- Embeds `planStore` with the required handover present. -/
def planStoreReady : Store := { tasks := [planTask], requirements := [],
                                artifacts := [implArt], auditLogs := [] }

/-- A task with an unresolvable dependency id. -/
def ghostTask : Task :=
  { demoTask with id := "G1", dependencies := .parsed ["ghost"] }

/-- A store where the dependency id ghost resolves to nothing. -/
def ghostStore : Store := { tasks := [ghostTask], requirements := [],
                            artifacts := [], auditLogs := [] }

/-- Selector settings with dependency_strict off. -/
def lenientSelection : SelectionConfig :=
  { demoSelection with dependencyStrict := false }

/-- Selector settings with an unrecognised tie_breaker. -/
def bogusSelection : SelectionConfig :=
  { demoSelection with tieBreaker := "bogus" }

/-- The more recently updated of two tied tasks. -/
def taskNewer : Task := { demoTask with id := "A", title := "A", updatedAt := 10 }

/-- The least recently updated of two tied tasks. -/
def taskOldest : Task := { demoTask with id := "B", title := "B", updatedAt := 5 }

/-- A store with the two tied tasks. -/
def tieStore : Store := { tasks := [taskNewer, taskOldest], requirements := [],
                          artifacts := [], auditLogs := [] }

/-! ## Shared helper lemmas -/

lemma maxVersionList_nonneg (l : List Int) : 0 ≤ maxVersionList l := by
  induction l with
  | nil => simp [maxVersionList]
  | cons w rest ih =>
    simp [maxVersionList]
    exact Or.inr ih

lemma maxVersionList_le_of_mem {v : Int} {l : List Int} (h : v ∈ l) :
    v ≤ maxVersionList l := by
  induction l with
  | nil => cases h
  | cons w rest ih =>
    rcases List.mem_cons.mp h with h1 | h2
    · subst h1; simp [maxVersionList]
    · simp [maxVersionList]
      exact Or.inr (ih h2)

lemma artifactsFor_append (s : Store) (tid nm : String) (a : Artifact)
    (h1 : a.taskID = tid) (h2 : a.name = nm) :
    artifactsFor { s with artifacts := s.artifacts ++ [a] } tid nm =
      artifactsFor s tid nm ++ [a] := by
  simp [artifactsFor, List.filter_append, h1, h2]

lemma latestArtifact_append (l : List Artifact) (a : Artifact)
    (h : ∀ b ∈ l, b.version < a.version) :
    latestArtifact (l ++ [a]) = some a := by
  induction l with
  | nil => simp [latestArtifact]
  | cons c rest ih =>
    have hc : c.version < a.version := h c (List.mem_cons_self c rest)
    have ih' := ih (fun b hb => h b (List.mem_cons_of_mem c hb))
    simp [latestArtifact, List.cons_append, ih', hc]

lemma find?_append_some {α : Type} {p : α → Bool} {l₁ : List α} {x : α}
    (l₂ : List α) (h : l₁.find? p = some x) : (l₁ ++ l₂).find? p = some x := by
  induction l₁ with
  | nil => simp [List.find?] at h
  | cons c rest ih =>
    by_cases hc : p c
    · rw [List.find?_cons_of_pos _ hc] at h
      rw [List.cons_append, List.find?_cons_of_pos _ hc]
      exact h
    · rw [List.find?_cons_of_neg _ hc] at h
      rw [List.cons_append, List.find?_cons_of_neg _ hc]
      exact ih h

lemma GetTask_id {s : Store} {tid : String} {task : Task}
    (h : GetTask s tid = some task) : task.id = tid := by
  have hp := List.find?_some h
  simpa using hp

/-- A required handover is violated when its latest version is absent or its
content is empty. -/
def handoverMissingOrEmpty (s : Store) (tid h : String) : Prop :=
  GetArtifact s tid h 0 = none ∨ ∃ a, GetArtifact s tid h 0 = some a ∧ a.content = ""

lemma handoverMissingOrEmpty_iff (s : Store) (tid h : String) :
    handoverMissingOrEmpty s tid h ↔
      ¬ ∃ a, GetArtifact s tid h 0 = some a ∧ a.content ≠ "" := by
  cases hg : GetArtifact s tid h 0 with
  | none => simp [handoverMissingOrEmpty, hg]
  | some a => simp [handoverMissingOrEmpty, hg]

lemma handoversLoop_ok_iff (s : Store) (tid : String) (l : List String) :
    handoversLoop s tid l = .ok () ↔
      ∀ h ∈ l, ∃ a, GetArtifact s tid h 0 = some a ∧ a.content ≠ "" := by
  induction l with
  | nil => simp [handoversLoop]
  | cons h rest ih =>
    cases hg : GetArtifact s tid h 0 with
    | none => simp [handoversLoop, hg]
    | some a =>
      by_cases hc : a.content = ""
      · simp [handoversLoop, hg, hc]
      · simp [handoversLoop, hg, hc, ih]

lemma handshakeLoop_stuck (s : Store) (cfg : CompletionConfig) (tid : String)
    (task : Task) (hg : GetTask s tid = some task) :
    ∀ (fuel : Nat) (followUps : List String) (retry : Nat),
      handshakeLoop s cfg tid task.state followUps retry fuel =
        .ok (none, followUps ++ List.replicate fuel cfg.followUpTemplate) := by
  intro fuel
  induction fuel with
  | zero =>
    intro fUps retry
    simp [handshakeLoop]
  | succ k ih =>
    intro fUps retry
    simp only [handshakeLoop, hg]
    rw [if_neg (by simp)]
    rw [ih]
    simp [List.replicate_succ]

/-- A dependency id blocks when it is unresolvable or the dependency task is
not DONE. -/
def depUnsatisfied (s : Store) (d : String) : Prop :=
  GetTask s d = none ∨ ∃ dt, GetTask s d = some dt ∧ dt.state ≠ "DONE"

lemma depsCheckLoop_blocked_iff (s : Store) (deps : List String) :
    (depsCheckLoop s deps).1 = true ↔ ∃ d ∈ deps, depUnsatisfied s d := by
  induction deps with
  | nil => simp [depsCheckLoop]
  | cons d rest ih =>
    cases hg : GetTask s d with
    | none =>
      simp only [depsCheckLoop, hg]
      constructor
      · intro _
        exact ⟨d, by simp, Or.inl hg⟩
      · intro _
        trivial
    | some dt =>
      by_cases hst : dt.state = "DONE"
      · simp only [depsCheckLoop, hg]
        rw [if_neg (by simp [hst])]
        rw [ih]
        constructor
        · rintro ⟨d', hmem, hun⟩
          exact ⟨d', List.mem_cons_of_mem d hmem, hun⟩
        · rintro ⟨d', hmem, hun⟩
          rcases List.mem_cons.mp hmem with rfl | hmem'
          · exfalso
            rcases hun with hnone | ⟨dt', h1, h2⟩
            · rw [hg] at hnone
              cases hnone
            · rw [hg] at h1
              exact h2 ((Option.some.inj h1).symm ▸ hst)
          · exact ⟨d', hmem', hun⟩
      · simp only [depsCheckLoop, hg]
        rw [if_pos hst]
        constructor
        · intro _
          exact ⟨d, by simp, Or.inr ⟨dt, hg, hst⟩⟩
        · intro _
          trivial

lemma selectByPriorityAndDependency_map_task (s : Store) (now : Nat)
    (tasks : List Task) (cfgA cfgB : SelectionConfig)
    (hstrict : cfgA.dependencyStrict = cfgB.dependencyStrict)
    (hless : candLess cfgA = candLess cfgB) :
    (selectByPriorityAndDependency s cfgA now tasks).map SelectionResult.task =
      (selectByPriorityAndDependency s cfgB now tasks).map SelectionResult.task := by
  have hblocked : ∀ t, isBlockedByDependencies s cfgA t =
      isBlockedByDependencies s cfgB t := by
    intro t
    rw [isBlockedByDependencies, isBlockedByDependencies, hstrict]
  simp only [selectByPriorityAndDependency, hblocked, sortCandidates, hless]
  cases hsrt : sortBySlice (candLess cfgB)
      ((tasks.map (fun t =>
        { task := t,
          blocked := (isBlockedByDependencies s cfgB t).1,
          blockReason := (isBlockedByDependencies s cfgB t).2,
          isLeaf := !hasUnfinishedDependents s t,
          priority := t.priority : TaskCandidate })).filter (fun c => !c.blocked)) with
  | nil => simp
  | cons sel rest => split <;> rfl

/-- A request constructor for tasks.append_note. -/
def mkAppendNoteReq (rid : Int) (tid note : String) : JSONRPCRequest :=
  { method := "baton.tasks.append_note", id := rid,
    params := [("task_id", JSONValue.str tid), ("note", JSONValue.str note)] }

/-! ## Claim theorems -/

/-- C1: the claim says the enforcer snapshots the task state before the LLM
is invoked and reports success whenever the reloaded state differs from that
snapshot, in particular after every legal in-invocation update_state. In the
source, both reads of `Enforce` happen after LLM termination, back to back,
so under sequential execution they always agree and the enforcer can never
report success — an in-invocation update is invisible to it. -/
theorem enforce_never_reports_success (s : Store) (cfg : CompletionConfig)
    (now : Nat) (tid : String) (resp : LLMResponse) (r : HandshakeResult)
    (s' : Store) (h : Enforce s cfg now tid resp = .ok (r, s')) :
    r.success = false := by
  cases hg : GetTask s tid with
  | none =>
    rw [Enforce, hg] at h
    cases h
  | some task =>
    simp only [Enforce, hg] at h
    rw [if_neg (by simp)] at h
    rw [enforceHandshake, handshakeLoop_stuck s cfg tid task hg cfg.maxRetries [] 0] at h
    by_cases hreq : cfg.requireExplicitStateUpdate
    · simp only [hreq, if_true] at h
      injection h with h'
      injection h' with hr hs
      rw [← hr]
    · simp only [hreq, if_false] at h
      injection h with h'
      injection h' with hr hs
      rw [← hr]

/-- C1 witness: a task legally advanced to planning during the invocation;
the enforcer still reports failure and clobbers it to needs_fixes. -/
theorem enforce_never_reports_success_witness :
    Enforce demoAdvancedStore demoCompletion 100 "T1" demoResponse =
      Except.ok (demoFailedHandshake, demoDroppedStore) ∧
    demoFailedHandshake.success = false := by
  refine ⟨rfl, ?_⟩
  exact enforce_never_reports_success demoAdvancedStore demoCompletion 100 "T1"
    demoResponse demoFailedHandshake demoDroppedStore rfl

/-- C2 counterexample: a cycle whose agent does nothing reports success with
post-state needs_fixes, which is not a legal successor of the pre-state
ready_for_plan; the forced drop bypassed the Validator. -/
theorem cycle_success_with_illegal_transition :
    (ExecuteCycle demoStore demoConfig (fun st => st) "done" 100 false "cyc1").map
        (fun p => (p.1.success, p.1.prevState, p.1.nextState)) =
      Except.ok (true, "ready_for_plan", "needs_fixes") ∧
    (ValidateTransition "ready_for_plan" "needs_fixes").isOk = false :=
  ⟨rfl, rfl⟩

/-- C2 amended: every state change performed through the Validator's
`ValidateAndTransition` lands in the transition table's successor set of the
task's current state; only the handshake's recovery drop writes around it. -/
theorem validator_transitions_are_legal (s : Store) (now : Nat)
    (tid ns note : String) (s' : Store)
    (h : ValidateAndTransition s now tid ns note = .ok s') :
    ∃ task allowed, GetTask s tid = some task ∧
      lookupTransitions (NormalizeState task.state) = some allowed ∧
      NormalizeState ns ∈ allowed ∧ s' = UpdateTaskState s now tid ns note := by
  cases hget : GetTask s tid with
  | none =>
    rw [ValidateAndTransition, hget] at h
    cases h
  | some task =>
    simp only [ValidateAndTransition, hget] at h
    cases hv : ValidateTransition task.state ns with
    | error e => simp only [hv] at h; cases h
    | ok u =>
      cases u
      simp only [hv] at h
      simp only [ValidateTransition] at hv
      cases hlk : lookupTransitions (NormalizeState task.state) with
      | none => simp only [hlk] at hv; cases hv
      | some allowed =>
        simp only [hlk] at hv
        by_cases hm : NormalizeState ns ∈ allowed
        · cases hd : validateDependencies s task ns with
          | error e => simp only [hd] at h; cases h
          | ok u2 =>
            cases u2
            simp only [hd] at h
            cases hh : validateRequiredHandovers s task ns with
            | error e => simp only [hh] at h; cases h
            | ok u3 =>
              cases u3
              simp only [hh] at h
              injection h with h'
              exact ⟨task, allowed, rfl, hlk, hm, h'.symm⟩
        · rw [if_neg hm] at hv
          cases hv

/-- C2 witness: the legal ready_for_plan → planning transition goes through
the Validator and lands in the successor set. -/
theorem validator_transitions_are_legal_witness :
    ValidateAndTransition demoStore 50 "T1" "planning" "n" =
      Except.ok demoAdvancedStore ∧
    NormalizeState "planning" ∈ (["planning"] : List String) := by
  refine ⟨rfl, ?_⟩
  obtain ⟨task, allowed, hg, hlk, hm, hupd⟩ :=
    validator_transitions_are_legal demoStore 50 "T1" "planning" "n"
      demoAdvancedStore rfl
  have ht : task = demoTask := Option.some.inj (by rw [← hg]; rfl)
  subst ht
  have ha : allowed = ["planning"] := Option.some.inj (by rw [← hlk]; rfl)
  rw [← ha]
  exact hm

/-- C3 counterexample: the transition ready_for_plan → DONE is rejected even
though it is not one of the six handover-table entries, so rejection is not
equivalent to a missing or empty handover artifact. -/
theorem reject_outside_handover_table :
    (ValidateAndTransition demoStore 0 "T1" "DONE" "x").isOk = false ∧
    getRequiredHandovers "ready_for_plan" "DONE" = [] ∧
    GetTask demoStore "T1" = some demoTask ∧ demoTask.state = "ready_for_plan" :=
  ⟨rfl, rfl, rfl, rfl⟩

/-- C3 amended: among proposed transitions that pass the transition-table
check and the dependency check, `ValidateAndTransition` rejects exactly when
the handover table names an artifact for the edge and that artifact's latest
version is absent or empty; edges outside the table require nothing. -/
theorem handover_rejection_characterization (s : Store) (now : Nat)
    (tid ns note : String) (task : Task)
    (hget : GetTask s tid = some task)
    (hvalid : ValidateTransition task.state ns = .ok ())
    (hdeps : validateDependencies s task ns = .ok ()) :
    ((ValidateAndTransition s now tid ns note).isOk = false ↔
      ∃ h ∈ getRequiredHandovers task.state ns, handoverMissingOrEmpty s tid h) ∧
    ((ValidateAndTransition s now tid ns note).isOk = true →
      ValidateAndTransition s now tid ns note =
        .ok (UpdateTaskState s now tid ns note)) := by
  have hid : task.id = tid := GetTask_id hget
  have hloop : validateRequiredHandovers s task ns =
      handoversLoop s tid (getRequiredHandovers task.state ns) := by
    rw [validateRequiredHandovers, hid]
  have hred : ValidateAndTransition s now tid ns note =
      match handoversLoop s tid (getRequiredHandovers task.state ns) with
      | .error e => .error ("handover validation failed: " ++ e)
      | .ok _ => .ok (UpdateTaskState s now tid ns note) := by
    simp only [ValidateAndTransition, hget, hvalid, hdeps, hloop]
  constructor
  · rw [hred]
    cases hl : handoversLoop s tid (getRequiredHandovers task.state ns) with
    | ok u =>
      cases u
      have hall := (handoversLoop_ok_iff s tid (getRequiredHandovers task.state ns)).mp hl
      simp only [Except.isOk, Except.toBool]
      constructor
      · intro hfalse
        cases hfalse
      · rintro ⟨h, hmem, hbad⟩
        exact absurd (hall h hmem) ((handoverMissingOrEmpty_iff s tid h).mp hbad)
    | error e =>
      simp only [Except.isOk, Except.toBool]
      constructor
      · intro _
        by_contra hno
        push_neg at hno
        have hall : ∀ h ∈ getRequiredHandovers task.state ns,
            ∃ a, GetArtifact s tid h 0 = some a ∧ a.content ≠ "" := by
          intro h hmem
          by_contra hne
          exact hno h hmem ((handoverMissingOrEmpty_iff s tid h).mpr hne)
        have hok := (handoversLoop_ok_iff s tid (getRequiredHandovers task.state ns)).mpr hall
        rw [hok] at hl
        cases hl
      · intro _
        trivial
  · intro hok
    rw [hred] at hok ⊢
    cases hl : handoversLoop s tid (getRequiredHandovers task.state ns) with
    | ok u => cases u; rfl
    | error e => rw [hl] at hok; cases hok

/-- C3 witness: planning → ready_for_implementation is rejected while
implementation_plan is missing and accepted once it exists nonempty. -/
theorem handover_rejection_characterization_witness :
    (ValidateAndTransition planStore 7 "T1" "ready_for_implementation" "n").isOk = false ∧
    handoverMissingOrEmpty planStore "T1" "implementation_plan" ∧
    ValidateAndTransition planStoreReady 7 "T1" "ready_for_implementation" "n" =
      Except.ok (UpdateTaskState planStoreReady 7 "T1" "ready_for_implementation" "n") := by
  have t1 := handover_rejection_characterization planStore 7 "T1"
    "ready_for_implementation" "n" planTask rfl rfl rfl
  have t2 := handover_rejection_characterization planStoreReady 7 "T1"
    "ready_for_implementation" "n" planTask rfl rfl rfl
  have hmiss : handoverMissingOrEmpty planStore "T1" "implementation_plan" :=
    Or.inl rfl
  refine ⟨t1.1.mpr ⟨"implementation_plan", by decide, hmiss⟩, hmiss, t2.2 rfl⟩

/-- C4: upsert assigns version max + 1 (1 when none exists), the latest read
returns the new row, explicit earlier versions remain retrievable, and
contiguity of versions 1..max is preserved. -/
theorem upsert_artifact_versioning (s : Store) (now : Nat)
    (newID tid nm c meta : String) :
    (UpsertArtifact s now newID tid nm c meta).1.version = maxVersion s tid nm + 1 ∧
    (UpsertArtifact s now newID tid nm c meta).1.content = c ∧
    (artifactsFor s tid nm = [] →
      (UpsertArtifact s now newID tid nm c meta).1.version = 1) ∧
    GetArtifact (UpsertArtifact s now newID tid nm c meta).2 tid nm 0 =
      some (UpsertArtifact s now newID tid nm c meta).1 ∧
    (∀ v a₀, v ≠ 0 → GetArtifact s tid nm v = some a₀ →
      GetArtifact (UpsertArtifact s now newID tid nm c meta).2 tid nm v = some a₀) ∧
    ((∀ w : Int, w ∈ (artifactsFor s tid nm).map (fun b => b.version) ↔
        1 ≤ w ∧ w ≤ maxVersion s tid nm) →
      ∀ w : Int,
        w ∈ (artifactsFor (UpsertArtifact s now newID tid nm c meta).2 tid nm).map
          (fun b => b.version) ↔ 1 ≤ w ∧ w ≤ maxVersion s tid nm + 1) := by
  have hfa : artifactsFor (UpsertArtifact s now newID tid nm c meta).2 tid nm =
      artifactsFor s tid nm ++ [(UpsertArtifact s now newID tid nm c meta).1] :=
    artifactsFor_append _ _ _ _ rfl rfl
  have hver : (UpsertArtifact s now newID tid nm c meta).1.version =
      maxVersion s tid nm + 1 := rfl
  have hlt : ∀ b ∈ artifactsFor s tid nm,
      b.version < (UpsertArtifact s now newID tid nm c meta).1.version := by
    intro b hb
    have hmem : b.version ∈ (artifactsFor s tid nm).map (fun x => x.version) :=
      List.mem_map_of_mem _ hb
    have hle : b.version ≤ maxVersion s tid nm := maxVersionList_le_of_mem hmem
    rw [hver]
    omega
  refine ⟨rfl, rfl, ?_, ?_, ?_, ?_⟩
  · intro h
    rw [hver]
    simp [maxVersion, h, maxVersionList]
  · rw [GetArtifact]
    simp only [hfa]
    simpa using latestArtifact_append _ _ hlt
  · intro v a₀ hv h0
    have hvb : (v == (0 : Int)) = false := by simpa using hv
    rw [GetArtifact, hvb] at h0
    rw [GetArtifact, hvb]
    simp only [if_false, hfa] at h0 ⊢
    exact find?_append_some _ h0
  · intro Hc w
    rw [hfa]
    simp only [List.map_append, List.mem_append, List.map_cons, List.map_nil,
      List.mem_singleton, Hc w, hver]
    have hnn : 0 ≤ maxVersion s tid nm := maxVersionList_nonneg _
    omega

/-- C4 witness: concrete versioning on an empty history and on a history at
version 1. -/
theorem upsert_artifact_versioning_witness :
    (UpsertArtifact emptyStore 5 "a1" "T1" "plan" "v1" "").1.version = 1 ∧
    (UpsertArtifact artStore 9 "a2" "T1" "plan" "v2" "").1.version = 2 ∧
    GetArtifact (UpsertArtifact artStore 9 "a2" "T1" "plan" "v2" "").2 "T1" "plan" 0 =
      some (UpsertArtifact artStore 9 "a2" "T1" "plan" "v2" "").1 ∧
    GetArtifact (UpsertArtifact artStore 9 "a2" "T1" "plan" "v2" "").2 "T1" "plan" 1 =
      some artOne ∧
    (2 : Int) ∈ (artifactsFor (UpsertArtifact artStore 9 "a2" "T1" "plan" "v2" "").2
      "T1" "plan").map (fun b => b.version) := by
  have tA := upsert_artifact_versioning artStore 9 "a2" "T1" "plan" "v2" ""
  have tB := upsert_artifact_versioning emptyStore 5 "a1" "T1" "plan" "v1" ""
  have hc : ∀ w : Int, w ∈ (artifactsFor artStore "T1" "plan").map (fun b => b.version) ↔
      1 ≤ w ∧ w ≤ maxVersion artStore "T1" "plan" := by
    intro w
    show w ∈ [(1 : Int)] ↔ 1 ≤ w ∧ w ≤ 1
    simp
    omega
  refine ⟨tB.2.2.1 rfl, tA.1.trans (by rfl), tA.2.2.2.1,
    tA.2.2.2.2.1 1 artOne (by decide) rfl,
    (tA.2.2.2.2.2 hc 2).mpr (by constructor <;> decide)⟩

/-- C5: a dry-run cycle leaves the store untouched and predicts the first
legal successor of the selected task's current state. -/
theorem dry_run_is_pure (s : Store) (cfg : Config) (act : Store → Store)
    (content : String) (now : Nat) (cid : String) (r : CycleResult) (s' : Store)
    (h : ExecuteCycle s cfg act content now true cid = .ok (r, s')) :
    s' = s ∧ ∃ sel agent, SelectNext s cfg.selection now = .ok sel ∧
      getAgentForTask cfg sel.task = some agent ∧
      r = { success := true, taskID := sel.task.id, prevState := sel.task.state,
            nextState := predictNextState sel.task.state, artifactsCreated := [] } ∧
      (∀ first rest,
        lookupTransitions (NormalizeState sel.task.state) = some (first :: rest) →
          r.nextState = first) := by
  cases hsel : SelectNext s cfg.selection now with
  | error e =>
    rw [ExecuteCycle, hsel] at h
    cases h
  | ok sel =>
    simp only [ExecuteCycle, hsel] at h
    cases hag : getAgentForTask cfg sel.task with
    | none => simp only [hag] at h; cases h
    | some agent =>
      simp only [hag] at h
      rw [if_pos trivial] at h
      injection h with h'
      injection h' with hrec hst
      refine ⟨hst.symm, sel, agent, rfl, hag, hrec.symm, ?_⟩
      intro first rest hlk
      rw [← hrec]
      simp [predictNextState, GetAllowedTransitions, hlk]

/-- C5 witness: a concrete dry run returns the store unchanged and predicts
planning from ready_for_plan. -/
theorem dry_run_is_pure_witness :
    ExecuteCycle demoStore demoConfig (fun st => st) "done" 100 true "cyc1" =
      Except.ok (demoDryResult, demoStore) ∧
    demoDryResult.nextState = "planning" ∧ demoStore = demoStore := by
  refine ⟨rfl, rfl, ?_⟩
  exact (dry_run_is_pure demoStore demoConfig (fun st => st) "done" 100 "cyc1"
    demoDryResult demoStore rfl).1

/-- C6 counterexample: with dependency_strict off, a candidate whose
dependency id resolves to no task is not classified as blocked, contradicting
the claim's for-every-configuration clause. -/
theorem unresolvable_dep_not_blocking_when_lenient :
    (isBlockedByDependencies ghostStore lenientSelection ghostTask).1 = false ∧
    GetTask ghostStore "ghost" = none ∧
    ghostTask.dependencies = DepsJSON.parsed ["ghost"] ∧
    lenientSelection.dependencyStrict = false :=
  ⟨rfl, rfl, rfl, rfl⟩

/-- C6 amended: a candidate is blocked iff dependency_strict is set and its
dependencies JSON is invalid or some dependency is unresolvable or not DONE;
with dependency_strict unset nothing blocks, and an empty dependency set
never blocks. -/
theorem blocked_classification (s : Store) (cfg : SelectionConfig) (task : Task) :
    (isBlockedByDependencies s cfg task).1 = true ↔
      (cfg.dependencyStrict = true ∧
        ((∃ m, task.dependencies = DepsJSON.invalid m) ∨
         (∃ deps, task.dependencies = DepsJSON.parsed deps ∧
            ∃ d ∈ deps, depUnsatisfied s d))) := by
  cases hs : cfg.dependencyStrict with
  | false => simp [isBlockedByDependencies, hs]
  | true =>
    cases hdep : task.dependencies with
    | empty => simp [isBlockedByDependencies, hs, hdep, depsCheckLoop]
    | invalid m => simp [isBlockedByDependencies, hs, hdep]
    | parsed deps =>
      simp [isBlockedByDependencies, hs, hdep, depsCheckLoop_blocked_iff]

/-- C7 counterexample: with two audit entries at times 10 and 20 the history
comes back latest-first, not in ascending time order. -/
theorem history_not_ascending :
    GetTaskHistory auditDemoStore "T" = [auditLate, auditEarly] ∧
    auditEarly.createdAt < auditLate.createdAt ∧
    ¬ List.Sorted (fun a b : AuditLog => a.createdAt ≤ b.createdAt)
        (GetTaskHistory auditDemoStore "T") := by
  refine ⟨rfl, by decide, ?_⟩
  intro hs
  rw [show GetTaskHistory auditDemoStore "T" = [auditLate, auditEarly] from rfl] at hs
  have h := (List.sorted_cons.mp hs).1 auditEarly (by simp)
  exact absurd h (by decide)

/-- C7 amended: history(task_id) returns exactly the task's audit entries
ordered by created_at descending (most recent first). -/
theorem history_sorted_descending (s : Store) (tid : String) :
    List.Sorted auditDescRel (GetTaskHistory s tid) ∧
    (GetTaskHistory s tid).Perm (s.auditLogs.filter (fun l => l.taskID == tid)) :=
  ⟨List.sorted_insertionSort auditDescRel _, List.perm_insertionSort auditDescRel _⟩

/-- C8: append_note succeeds on an existing task and preserves its state, and
fails resource-not-found on a missing task without writing — but the note
itself is discarded: the resulting store does not depend on it, because the
store's UPDATE writes only state and updated_at. -/
theorem append_note_drops_note (s : Store) (now : Nat) (rid : Int)
    (tid n₁ n₂ : String) :
    ((TaskHandler.AppendNote s now (mkAppendNoteReq rid tid n₁)).2 =
      (TaskHandler.AppendNote s now (mkAppendNoteReq rid tid n₂)).2) ∧
    (∀ task, GetTask s tid = some task →
      TaskHandler.AppendNote s now (mkAppendNoteReq rid tid n₁) =
        (RPCResult.ok rid (.noteAppended tid),
          UpdateTaskState s now tid task.state n₁)) ∧
    (GetTask s tid = none →
      TaskHandler.AppendNote s now (mkAppendNoteReq rid tid n₁) =
        (RPCResult.err rid ResourceNotFound "Task not found", s)) := by
  have hp1 : GetStringParam (mkAppendNoteReq rid tid n₁) "task_id" = .ok tid := rfl
  have hp2 : GetStringParam (mkAppendNoteReq rid tid n₂) "task_id" = .ok tid := rfl
  have hn1 : GetStringParam (mkAppendNoteReq rid tid n₁) "note" = .ok n₁ := rfl
  have hn2 : GetStringParam (mkAppendNoteReq rid tid n₂) "note" = .ok n₂ := rfl
  refine ⟨?_, ?_, ?_⟩
  · cases hg : GetTask s tid with
    | none => simp only [TaskHandler.AppendNote, hp1, hp2, hn1, hn2, hg]
    | some task =>
      simp only [TaskHandler.AppendNote, hp1, hp2, hn1, hn2, hg]
      rfl
  · intro task hg
    simp only [TaskHandler.AppendNote, hp1, hn1, hg]
    rfl
  · intro hg
    simp only [TaskHandler.AppendNote, hp1, hn1, hg]
    rfl

/-- C8 witness: concrete append_note calls — the store result is identical
for two different notes, state is preserved, and a missing id fails with
resource-not-found leaving the store untouched. -/
theorem append_note_drops_note_witness :
    GetTask demoStore "T1" = some demoTask ∧
    TaskHandler.AppendNote demoStore 42 (mkAppendNoteReq 1 "T1" "hello") =
      (RPCResult.ok 1 (.noteAppended "T1"),
        UpdateTaskState demoStore 42 "T1" demoTask.state "hello") ∧
    (TaskHandler.AppendNote demoStore 42 (mkAppendNoteReq 1 "T1" "hello")).2 =
      (TaskHandler.AppendNote demoStore 42 (mkAppendNoteReq 1 "T1" "other")).2 ∧
    TaskHandler.AppendNote demoStore 42 (mkAppendNoteReq 1 "missing" "hello") =
      (RPCResult.err 1 ResourceNotFound "Task not found", demoStore) := by
  have t := append_note_drops_note demoStore 42 1 "T1" "hello" "other"
  have t2 := append_note_drops_note demoStore 42 1 "missing" "hello" "x"
  exact ⟨rfl, t.2.1 demoTask rfl, t.1, t2.2.2 rfl⟩

/-- C9 counterexample: the not-found response of tasks.get carries code
-32002, not -32001 as the claim states. -/
theorem not_found_code_not_32001 :
    TaskHandler.Get demoStore reqMissing = RPCResult.err 1 (-32002) "Task not found" ∧
    TaskHandler.Get demoStore reqMissing ≠ RPCResult.err 1 (-32001) "Task not found" :=
  ⟨rfl, by decide⟩

/-- C9 amended: resource-not-found responses carry the constant
ResourceNotFound = -32002; -32001 is the ToolNotFound constant, and no
forbidden code exists in the source. -/
theorem resource_not_found_uses_32002 (s : Store) (req : JSONRPCRequest)
    (tid : String) (hp : GetStringParam req "task_id" = .ok tid)
    (hmiss : GetTask s tid = none) :
    TaskHandler.Get s req = RPCResult.err req.id ResourceNotFound "Task not found" ∧
    ResourceNotFound = -32002 ∧ ToolNotFound = -32001 := by
  refine ⟨?_, rfl, rfl⟩
  simp only [TaskHandler.Get, hp, hmiss]

/-- C9 witness: a concrete missing-task lookup. -/
theorem resource_not_found_uses_32002_witness :
    GetTask demoStore "missing" = none ∧
    TaskHandler.Get demoStore reqMissing =
      RPCResult.err 1 ResourceNotFound "Task not found" := by
  exact ⟨rfl, (resource_not_found_uses_32002 demoStore reqMissing "missing" rfl rfl).1⟩

/-- C10: a tie_breaker outside the three recognised values does not make the
selector fail; candidates are ordered exactly as with oldest_updated, and the
selected task is the same. -/
theorem unknown_tie_breaker_defaults_oldest_updated (s : Store)
    (cfg : SelectionConfig) (now : Nat)
    (h1 : cfg.tieBreaker ≠ "oldest_updated")
    (h2 : cfg.tieBreaker ≠ "newest_created")
    (h3 : cfg.tieBreaker ≠ "alphabetical") :
    (∀ cands, sortCandidates cfg cands =
      sortCandidates { cfg with tieBreaker := "oldest_updated" } cands) ∧
    ((SelectNext s cfg now).map SelectionResult.task =
      (SelectNext s { cfg with tieBreaker := "oldest_updated" } now).map
        SelectionResult.task) := by
  have hcl : candLess cfg = candLess { cfg with tieBreaker := "oldest_updated" } := by
    funext a b
    simp [candLess, h1, h2, h3]
  refine ⟨fun cands => by rw [sortCandidates, sortCandidates, hcl], ?_⟩
  rw [SelectNext, SelectNext]
  by_cases he : (getSelectableTasks s).isEmpty
  · rw [if_pos he, if_pos he]
  · rw [if_neg he, if_neg he]
    by_cases ha : cfg.algorithm = "priority_dependency"
    · rw [if_pos ha, if_pos ha]
      exact selectByPriorityAndDependency_map_task s now _ cfg _ rfl hcl
    · rw [if_neg ha, if_neg ha]

/-- C10 witness: with tie_breaker bogus the selector still succeeds and picks
the least recently updated of two tied tasks, as oldest_updated would. -/
theorem unknown_tie_breaker_defaults_oldest_updated_witness :
    (SelectNext tieStore bogusSelection 100).map SelectionResult.task =
      (SelectNext tieStore { bogusSelection with tieBreaker := "oldest_updated" } 100).map
        SelectionResult.task ∧
    (SelectNext tieStore bogusSelection 100).map SelectionResult.task =
      Except.ok taskOldest := by
  refine ⟨(unknown_tie_breaker_defaults_oldest_updated tieStore bogusSelection 100
    (by decide) (by decide) (by decide)).2, rfl⟩

end Baton
